import Mathlib

/-!
Verification development for the pipeline-inspection repository.

The frontend code (Next.js dashboard) is embedded from the TypeScript
sources: `frontend/app/page.tsx`, `frontend/components/DetectionLog.tsx`,
`frontend/components/VideoStream.tsx`, `frontend/lib/config.ts` and the
shared `Detection` type.  JavaScript numbers are modelled as exact
rationals, JavaScript strings as Lean strings, and optional / nullable
fields as `Option`.  JavaScript truthiness is modelled explicitly where a
source expression depends on it (`data.error`, `data.frame`,
`detection.frame_position`, the optional `wsUrl` argument).

The backend detection post-processor is not part of the available sources,
so it is modelled from the specification text (section 4.3); the
definitions concerned say so in their doc comments.
-/

/-- Axis-aligned bounding box with corner coordinates `(x1, y1, x2, y2)`
in source-frame pixel space, as in the shared `Detection` type
(`bbox: \x7bx1, y1, x2, y2\x7d`). -/
structure BBox where
  x1 : ℚ
  y1 : ℚ
  x2 : ℚ
  y2 : ℚ
deriving DecidableEq

/-- Modelled from the spec: a raw detection as produced by the inference
backend and consumed by `DetectionPostProcessor.process` — a class label,
a confidence value and a bounding box (spec section 4.3; the backend
source is not available). -/
structure RawDetection where
  class_name : String
  confidence : ℚ
  bbox : BBox
deriving DecidableEq

/-- Area of a bounding box, `(x2 - x1) * (y2 - y1)`. -/
def boxArea (b : BBox) : ℚ :=
  (b.x2 - b.x1) * (b.y2 - b.y1)

/-- Intersection area of two boxes: the product of the clamped axis
overlaps. -/
def interArea (a b : BBox) : ℚ :=
  max 0 (min a.x2 b.x2 - max a.x1 b.x1) * max 0 (min a.y2 b.y2 - max a.y1 b.y1)

/-- Union area of two boxes by inclusion-exclusion. -/
def unionArea (a b : BBox) : ℚ :=
  boxArea a + boxArea b - interArea a b

/-- Overlap ratio of two boxes: intersection area divided by union area
(division by zero in `ℚ` yields `0`, matching a degenerate empty union). -/
def overlapRatio (a b : BBox) : ℚ :=
  interArea a b / unionArea a b

/-- Modelled from the spec: stable insertion of a detection into a list
already sorted by descending confidence — the inserted element goes in
front of the first element whose confidence does not exceed it, so ties
in confidence break by first-seen order (spec section 4.3). -/
def insertDesc (d : RawDetection) : List RawDetection → List RawDetection
  | [] => [d]
  | e :: rest =>
      if e.confidence ≤ d.confidence then d :: e :: rest
      else e :: insertDesc d rest

/-- Modelled from the spec: sort a detection group by descending
confidence, stably (spec section 4.3, step 3). -/
def sortByConfDesc (l : List RawDetection) : List RawDetection :=
  l.foldr insertDesc []

/-- Modelled from the spec: greedy overlap suppression within one
class group (spec section 4.3, step 3) — repeatedly take the highest
remaining detection (the head of the descending-sorted list), discard
every other detection whose overlap ratio with it exceeds the threshold,
and repeat on the remainder.  The natural-number bound, initialised to
the list length, makes the repeat-until-empty loop structurally
recursive; it never runs out because each round removes at least the
head. -/
def suppressGo (t : ℚ) : ℕ → List RawDetection → List RawDetection
  | _, [] => []
  | 0, _ :: _ => []
  | n + 1, d :: rest =>
      d :: suppressGo t n (rest.filter fun e => decide (overlapRatio d.bbox e.bbox ≤ t))

/-- Modelled from the spec: greedy overlap suppression of a
confidence-sorted group (spec section 4.3). -/
def suppress (t : ℚ) (l : List RawDetection) : List RawDetection :=
  suppressGo t l.length l

/-- Class labels occurring in a detection list, without duplicates;
used to group detections by class label (spec section 4.3, step 2). -/
def classesOf (l : List RawDetection) : List String :=
  (l.map (fun d => d.class_name)).dedup

/-- Modelled from the spec: `DetectionPostProcessor.process` steps 1–3
(spec section 4.3) — (1) drop detections whose confidence is below
`confidenceThreshold`, (2) group the survivors by class label, (3) within
each group sort by descending confidence (stable) and apply greedy
overlap suppression with `overlapThreshold`.  Steps 4–5 (clamping the
surviving boxes to frame bounds and stamping them with the frame
timestamp and sequence number) only rewrite coordinates and metadata of
the survivors and are not needed by the properties verified here. -/
def process (raw : List RawDetection) (confidenceThreshold overlapThreshold : ℚ) :
    List RawDetection :=
  let kept := raw.filter fun d => decide (confidenceThreshold ≤ d.confidence)
  ((classesOf kept).map fun c =>
    suppress overlapThreshold
      (sortByConfDesc (kept.filter fun d => decide (d.class_name = c)))).flatten

/-- The shared frontend `Detection` type (`frontend/types/index.ts`):
class name, confidence, bounding box, ISO timestamp string, and an
optional (possibly null) scalar frame position. -/
structure Detection where
  class_name : String
  confidence : ℚ
  bbox : BBox
  timestamp : String
  frame_position : Option ℚ
deriving DecidableEq

/-- The `DEFECT_COLORS` record of `DetectionLog.tsx` with its
`"text-gray-400"` fallback for unknown classes. -/
def defectColor (c : String) : String :=
  if c = "foreign_object" then "text-red-400"
  else if c = "crack" then "text-orange-400"
  else if c = "rust" then "text-yellow-400"
  else if c = "corrosion" then "text-amber-400"
  else if c = "sediment" then "text-brown-400"
  else if c = "leak" then "text-blue-400"
  else "text-gray-400"

/-- The `DEFECT_ICONS` record of `DetectionLog.tsx` with its magnifier
fallback for unknown classes. -/
def defectIcon (c : String) : String :=
  if c = "foreign_object" then "⚠️"
  else if c = "crack" then "🔴"
  else if c = "rust" then "🟠"
  else if c = "corrosion" then "🟡"
  else if c = "sediment" then "🟤"
  else if c = "leak" then "💧"
  else "🔍"

/-- One word capitalised as in `DetectionLog.formatClassName`:
`word.charAt(0).toUpperCase() + word.slice(1)`. -/
def capitalizeWord (w : String) : String :=
  match w.toList with
  | [] => ""
  | c :: rest => String.mk (c.toUpper :: rest)

/-- `DetectionLog.formatClassName`: split on underscores, capitalise each
word, join with spaces. -/
def formatClassName (c : String) : String :=
  String.intercalate " " ((c.splitOn "_").map capitalizeWord)

/-- The data rendered for one entry of the detection log: icon, colour
class, formatted class name, the raw timestamp that `formatTime` displays,
the confidence percentage, and the position shown only when
`detection.frame_position` is truthy. -/
structure RenderedEntry where
  icon : String
  colorClass : String
  name : String
  time : String
  confidencePct : ℚ
  position : Option ℚ
deriving DecidableEq

/-- Rendering of one detection row in `DetectionLog.tsx` (lines 93–135).
The position span is guarded by the JavaScript truthiness of
`detection.frame_position`, so a position of `0`, `null` or an absent
field all render nothing. -/
def renderEntry (d : Detection) : RenderedEntry :=
  { icon := defectIcon d.class_name
    colorClass := defectColor d.class_name
    name := formatClassName d.class_name
    time := d.timestamp
    confidencePct := d.confidence * 100
    position :=
      match d.frame_position with
      | some p => if p = 0 then none else some p
      | none => none }

/-- The average-confidence expression of the `DetectionLog` footer
(lines 146–151): `detections.reduce((sum, d) => sum + d.confidence, 0) /
detections.length`. -/
def avgConfidence (ds : List Detection) : ℚ :=
  ds.foldl (fun sum d => sum + d.confidence) 0 / (ds.length : ℚ)

/-- The footer of the detection log: total count and the displayed
average-confidence percentage. -/
structure LogFooter where
  total : ℕ
  avgPct : ℚ
deriving DecidableEq

/-- The full view state produced by the `DetectionLog` component: the
count badge, whether the empty placeholder is shown, the rendered entries
(newest first, via `slice().reverse()`), and the footer, which the JSX
guard `detections.length > 0 && ...` renders only for a non-empty list —
the average-confidence division is evaluated only under that guard. -/
structure LogView where
  countBadge : ℕ
  showEmptyState : Bool
  entries : List RenderedEntry
  footer : Option LogFooter
deriving DecidableEq

/-- The `DetectionLog` component as a function from the detection list to
its rendered view. -/
def detectionLog (ds : List Detection) : LogView :=
  { countBadge := ds.length
    showEmptyState := decide (ds.length = 0)
    entries := ds.reverse.map renderEntry
    footer :=
      if 0 < ds.length then some ⟨ds.length, avgConfidence ds * 100⟩
      else none }

/-- `handleNewDetection` in `app/page.tsx` (lines 35–37):
`setDetections((prev) => [...prev, detection])`. -/
def handleNewDetection (prev : List Detection) (d : Detection) : List Detection :=
  prev ++ [d]

/-- Outcome of the awaited `fetch` of the clear endpoint: the promise
either resolves with some HTTP status code (fetch resolves for every
received response, success or not) or is thrown (network failure). -/
inductive FetchOutcome where
  | resolved (status : ℕ)
  | thrown
deriving DecidableEq

/-- `handleClearDetections` in `app/page.tsx` (lines 39–48): it awaits the
DELETE request and then sets the list to `[]`; the response status is
never inspected, so the list is cleared for every resolved response, and
only a thrown fetch (caught by the `catch` block) leaves the list
unchanged. -/
def handleClearDetections (state : List Detection) : FetchOutcome → List Detection
  | .resolved _ => []
  | .thrown => state

/-- JavaScript truthiness of an optional string field: absent (`undefined`
or `null`) and the empty string are falsy, every other string is truthy. -/
def optStrTruthy : Option String → Bool
  | some s => decide (s ≠ "")
  | none => false

/-- One parsed message of the `/ws/video` stream as the client reads it
(`VideoStream.tsx` `ws.onmessage`): an optional `error` field, the
base64-encoded `frame` text, the `detections` array and a `timestamp`. -/
structure StreamMessage where
  error : Option String
  frame : Option String
  detections : Option (List Detection)
  timestamp : String
deriving DecidableEq

/-- The observable effect of one `ws.onmessage` call: the detections
forwarded to the `onNewDetection` callback, in order, and the frame (if
any) drawn on the canvas. -/
structure OnMessageEffect where
  forwarded : List Detection
  renderedFrame : Option String
deriving DecidableEq

/-- The `ws.onmessage` handler of `VideoStream.tsx` (lines 379–428) for a
successfully parsed message, with the canvas mounted: a truthy
`data.error` returns early (nothing forwarded, nothing drawn); otherwise
a truthy `data.frame` is drawn, and when `data.detections` is present
with positive length each detection is forwarded once, in array
order. -/
def onmessage (m : StreamMessage) : OnMessageEffect :=
  if optStrTruthy m.error then ⟨[], none⟩
  else
    { forwarded :=
        match m.detections with
        | some ds => if 0 < ds.length then ds else []
        | none => []
      renderedFrame :=
        match m.frame with
        | some f => if f = "" then none else some f
        | none => none }

/-- Events observed by the `VideoStream` WebSocket handlers. -/
inductive WsEvent where
  | opened
  | message (m : StreamMessage)
  | errored
  | closed
deriving DecidableEq

/-- Returns `true` exactly on a close event. -/
def isCloseEvent : WsEvent → Bool
  | .closed => true
  | _ => false

/-- The client-side reconnection delay passed to `setTimeout` in
`ws.onclose`: 3000 milliseconds. -/
def reconnectDelayMs : ℕ := 3000

/-- Accumulated client state of the `VideoStream` component: the
streaming flag, every detection forwarded so far, every frame drawn so
far, and the delay of every reconnection attempt scheduled so far. -/
structure VideoStreamState where
  isStreaming : Bool
  forwarded : List Detection
  renderedFrames : List String
  scheduledReconnectDelays : List ℕ
deriving DecidableEq

/-- The initial state after `connectWebSocket` runs: not yet streaming,
nothing forwarded, drawn or scheduled. -/
def initialVideoStreamState : VideoStreamState :=
  ⟨false, [], [], []⟩

/-- One step of the `VideoStream` event handlers (`VideoStream.tsx`
lines 373–446): `onopen` sets the streaming flag; `onmessage` appends its
effect; `onerror` clears the flag; `onclose` clears the flag and
schedules `connectWebSocket` with a fixed 3000 ms delay — the scheduled
`connectWebSocket` reinstalls the same `onclose` handler, so every later
close schedules another attempt. -/
def handleEvent (s : VideoStreamState) : WsEvent → VideoStreamState
  | .opened => { s with isStreaming := true }
  | .message m =>
      let eff := onmessage m
      { s with
          forwarded := s.forwarded ++ eff.forwarded
          renderedFrames := s.renderedFrames ++ eff.renderedFrame.toList }
  | .errored => { s with isStreaming := false }
  | .closed =>
      { s with
          isStreaming := false
          scheduledReconnectDelays := s.scheduledReconnectDelays ++ [reconnectDelayMs] }

/-- Folding a whole event sequence through the handlers. -/
def runEvents (s : VideoStreamState) (es : List WsEvent) : VideoStreamState :=
  es.foldl handleEvent s

/-- The module-level `config` object of `frontend/lib/config.ts`: the
default API and WebSocket base URLs (environment variable or the
localhost defaults) and the runtime-configuration switch. -/
structure FrontendConfig where
  apiUrl : String
  wsUrl : String
  allowRuntimeConfig : Bool
deriving DecidableEq

/-- The `localStorage` keys used by `lib/config.ts`: `custom_api_url` and
`custom_ws_url`, each either absent or a stored string. -/
structure ConfigStore where
  custom_api_url : Option String
  custom_ws_url : Option String
deriving DecidableEq

/-- `getApiUrl` (`lib/config.ts` lines 24–34), in a browser context:
when runtime configuration is allowed and a truthy `custom_api_url` is
stored it is used as the base, otherwise the configured default;
the path is appended to the base. -/
def getApiUrl (cfg : FrontendConfig) (st : ConfigStore) (path : String) : String :=
  if cfg.allowRuntimeConfig then
    match st.custom_api_url with
    | some u => if u = "" then cfg.apiUrl ++ path else u ++ path
    | none => cfg.apiUrl ++ path
  else cfg.apiUrl ++ path

/-- `getWebSocketUrl` (`lib/config.ts` lines 39–49), in a browser
context: the stored truthy `custom_ws_url` when runtime configuration is
allowed, otherwise the configured default, with the path appended. -/
def getWebSocketUrl (cfg : FrontendConfig) (st : ConfigStore) (path : String) : String :=
  if cfg.allowRuntimeConfig then
    match st.custom_ws_url with
    | some u => if u = "" then cfg.wsUrl ++ path else u ++ path
    | none => cfg.wsUrl ++ path
  else cfg.wsUrl ++ path

/-- Replacement of the first occurrence of `pat` by `rep` in a character
list, as JavaScript `String.prototype.replace` does for string patterns
(an empty pattern matches at the start). -/
def replaceFirstChars (pat rep : List Char) : List Char → List Char
  | [] => if pat.isEmpty then rep else []
  | c :: rest =>
      if pat.isPrefixOf (c :: rest) then rep ++ (c :: rest).drop pat.length
      else c :: replaceFirstChars pat rep rest

/-- JavaScript `s.replace(pat, rep)` for a string pattern: only the first
occurrence is replaced. -/
def replaceFirst (s pat rep : String) : String :=
  String.mk (replaceFirstChars pat.toList rep.toList s.toList)

/-- The auto-generated WebSocket URL of `setCustomServerUrl`
(`lib/config.ts` line 63):
`apiUrl.replace("http://", "ws://").replace("https://", "wss://")`. -/
def wsAutoUrl (apiUrl : String) : String :=
  replaceFirst (replaceFirst apiUrl "http://" "ws://") "https://" "wss://"

/-- `setCustomServerUrl` (`lib/config.ts` lines 54–66), in a browser
context: stores the API URL, and stores the given WebSocket URL when it
is truthy, otherwise the WebSocket URL auto-generated from the API
URL. -/
def setCustomServerUrl (_st : ConfigStore) (apiUrl : String) (wsUrl : Option String) :
    ConfigStore :=
  { custom_api_url := some apiUrl
    custom_ws_url :=
      match wsUrl with
      | some w => if w = "" then some (wsAutoUrl apiUrl) else some w
      | none => some (wsAutoUrl apiUrl) }

/-- `clearCustomServerUrl` (`lib/config.ts` lines 71–76), in a browser
context: removes both stored keys. -/
def clearCustomServerUrl (_ : ConfigStore) : ConfigStore :=
  ⟨none, none⟩

/-- Concrete raw detection A for the suppression analysis: class crack,
confidence 0.9, box x from 0 to 10, y from 0 to 1. -/
def cexA : RawDetection := ⟨"crack", (9:ℚ)/10, ⟨0, 0, 10, 1⟩⟩

/-- Concrete raw detection B: class crack, confidence 0.8, box x from 5
to 15, y from 0 to 1; its overlap ratio with `cexA` is 1/3. -/
def cexB : RawDetection := ⟨"crack", (8:ℚ)/10, ⟨5, 0, 15, 1⟩⟩

/-- Concrete raw detection C: class crack, confidence 0.95, box x from -3
to 7, y from 0 to 1; its overlap ratio with `cexA` is 7/13 and with
`cexB` is 1/9. -/
def cexC : RawDetection := ⟨"crack", (95:ℚ)/100, ⟨-3, 0, 7, 1⟩⟩

/-- The four detections of the summary scenario (classes crack, rust,
crack, rust with confidences 0.8, 0.6, 0.7, 0.9). -/
def sampleDets : List Detection :=
  [⟨"crack", (8:ℚ)/10, ⟨0, 0, 1, 1⟩, "2024-01-01T10:00:00Z", none⟩,
   ⟨"rust", (6:ℚ)/10, ⟨1, 1, 2, 2⟩, "2024-01-01T10:00:00Z", none⟩,
   ⟨"crack", (7:ℚ)/10, ⟨2, 2, 3, 3⟩, "2024-01-01T10:00:01Z", none⟩,
   ⟨"rust", (9:ℚ)/10, ⟨3, 3, 4, 4⟩, "2024-01-01T10:00:02Z", none⟩]

/-- A concrete detection used in the stream-message examples. -/
def c6Detection : Detection :=
  ⟨"crack", (9:ℚ)/10, ⟨0, 0, 1, 1⟩, "2024-01-01T10:00:00Z", none⟩

/-- A stream message that carries an `error` field whose value is the
empty string, together with a non-empty detections array. -/
def c6Message : StreamMessage :=
  ⟨some "", none, some [c6Detection], "2024-01-01T10:00:00Z"⟩

theorem mem_insertDesc {d x : RawDetection} {l : List RawDetection}
    (hx : x ∈ insertDesc d l) : x = d ∨ x ∈ l := by
  induction l with
  | nil => simpa [insertDesc] using hx
  | cons e rest ih =>
      by_cases h : e.confidence ≤ d.confidence
      · simpa [insertDesc, h, or_assoc] using hx
      · simp only [insertDesc, h, if_false, List.mem_cons] at hx
        rcases hx with h1 | h2
        · exact Or.inr (by simp [h1])
        · rcases ih h2 with h3 | h4
          · exact Or.inl h3
          · exact Or.inr (List.mem_cons_of_mem _ h4)

theorem mem_sortByConfDesc {x : RawDetection} {l : List RawDetection}
    (hx : x ∈ sortByConfDesc l) : x ∈ l := by
  induction l with
  | nil => simp [sortByConfDesc] at hx
  | cons e rest ih =>
      rcases mem_insertDesc (by simpa [sortByConfDesc] using hx) with h | h
      · simp [h]
      · exact List.mem_cons_of_mem _ (ih (by simpa [sortByConfDesc] using h))

theorem mem_suppressGo {t : ℚ} {x : RawDetection} :
    ∀ {n : ℕ} {l : List RawDetection}, x ∈ suppressGo t n l → x ∈ l := by
  intro n
  induction n with
  | zero =>
      intro l hx
      cases l with
      | nil => simp [suppressGo] at hx
      | cons d rest => simp [suppressGo] at hx
  | succ n ih =>
      intro l hx
      cases l with
      | nil => simp [suppressGo] at hx
      | cons d rest =>
          simp only [suppressGo, List.mem_cons] at hx
          rcases hx with h | h
          · simp [h]
          · exact List.mem_cons_of_mem _ (List.mem_of_mem_filter (ih h))

theorem suppressGo_pairwise (t : ℚ) :
    ∀ (n : ℕ) (l : List RawDetection),
      (suppressGo t n l).Pairwise fun a b => overlapRatio a.bbox b.bbox ≤ t := by
  intro n
  induction n with
  | zero =>
      intro l
      cases l with
      | nil => simp [suppressGo]
      | cons d rest => simp [suppressGo]
  | succ n ih =>
      intro l
      cases l with
      | nil => simp [suppressGo]
      | cons d rest =>
          simp only [suppressGo, List.pairwise_cons]
          refine ⟨?_, ih _⟩
          intro b hb
          have hbf := mem_suppressGo hb
      -- membership in the filtered list carries the overlap bound
          have := List.of_mem_filter hbf
          simpa using of_decide_eq_true this

theorem suppress_pairwise (t : ℚ) (l : List RawDetection) :
    (suppress t l).Pairwise fun a b => overlapRatio a.bbox b.bbox ≤ t :=
  suppressGo_pairwise t l.length l

theorem mem_suppress {t : ℚ} {x : RawDetection} {l : List RawDetection}
    (hx : x ∈ suppress t l) : x ∈ l :=
  mem_suppressGo hx

theorem class_of_mem_group {kept : List RawDetection} {ot : ℚ} {c : String}
    {x : RawDetection}
    (hx : x ∈ suppress ot (sortByConfDesc (kept.filter fun d => decide (d.class_name = c)))) :
    x.class_name = c :=
  of_decide_eq_true (List.mem_filter.mp (mem_sortByConfDesc (mem_suppress hx))).2

theorem mem_process {raw : List RawDetection} {ct ot : ℚ} {d : RawDetection}
    (hd : d ∈ process raw ct ot) : d ∈ raw ∧ ct ≤ d.confidence := by
  unfold process at hd
  simp only [List.mem_flatten, List.mem_map] at hd
  obtain ⟨l, ⟨c, hc, rfl⟩, hdl⟩ := hd
  have h1 := mem_sortByConfDesc (mem_suppress hdl)
  have h2 := (List.mem_filter.mp h1).1
  exact ⟨(List.mem_filter.mp h2).1, of_decide_eq_true (List.mem_filter.mp h2).2⟩

theorem process_pairwise (raw : List RawDetection) (ct ot : ℚ) :
    (process raw ct ot).Pairwise
      (fun a b => a.class_name = b.class_name → overlapRatio a.bbox b.bbox ≤ ot) := by
  unfold process
  rw [List.pairwise_flatten]
  constructor
  · intro l hl
    simp only [List.mem_map] at hl
    obtain ⟨c, hc, rfl⟩ := hl
    exact (suppress_pairwise ot _).imp fun {a b} h (_ : a.class_name = b.class_name) => h
  · rw [List.pairwise_map]
    have hnd : (classesOf (raw.filter fun d => decide (ct ≤ d.confidence))).Nodup :=
      List.nodup_dedup _
    refine hnd.imp ?_
    intro c1 c2 hne x hx y hy hclass
    exact absurd ((class_of_mem_group hx).symm.trans (hclass.trans (class_of_mem_group hy))) hne

theorem foldl_add_confidence (ds : List Detection) (a : ℚ) :
    ds.foldl (fun sum d => sum + d.confidence) a
      = a + ((ds.map fun d => d.confidence).sum) := by
  induction ds generalizing a with
  | nil => simp
  | cons d rest ih =>
      simp only [List.foldl_cons, List.map_cons, List.sum_cons, ih]
      ring

theorem runEvents_scheduled (es : List WsEvent) (s : VideoStreamState) :
    (runEvents s es).scheduledReconnectDelays
      = s.scheduledReconnectDelays
        ++ List.replicate (es.countP isCloseEvent) reconnectDelayMs := by
  induction es generalizing s with
  | nil => simp [runEvents]
  | cons e es ih =>
      have hstep : runEvents s (e :: es) = runEvents (handleEvent s e) es := rfl
      rw [hstep, ih]
      cases e with
      | opened => simp [handleEvent, List.countP_cons, isCloseEvent]
      | message m => simp [handleEvent, List.countP_cons, isCloseEvent]
      | errored => simp [handleEvent, List.countP_cons, isCloseEvent]
      | closed =>
          simp [handleEvent, List.countP_cons, isCloseEvent, List.replicate_succ]

theorem replaceFirstChars_ne_nil {pat rep s : List Char}
    (hs : s ≠ []) (hrep : rep ≠ []) : replaceFirstChars pat rep s ≠ [] := by
  cases s with
  | nil => exact absurd rfl hs
  | cons c rest =>
      by_cases h : pat.isPrefixOf (c :: rest)
      · simp only [replaceFirstChars, h, if_true]
        intro hcontra
        exact hrep (List.append_eq_nil.mp hcontra).1
      · simp [replaceFirstChars, h]

theorem replaceFirst_ne_empty {s pat rep : String} (hs : s ≠ "") (hrep : rep ≠ "") :
    replaceFirst s pat rep ≠ "" := by
  unfold replaceFirst
  intro hcontra
  have hdata : replaceFirstChars pat.toList rep.toList s.toList = [] := by
    have := congrArg String.toList hcontra
    simpa using this
  have hsl : s.toList ≠ [] := fun h => hs (by
    have := congrArg String.mk h
    simpa using this)
  have hrl : rep.toList ≠ [] := fun h => hrep (by
    have := congrArg String.mk h
    simpa using this)
  exact replaceFirstChars_ne_nil hsl hrl hdata

theorem wsAutoUrl_ne_empty {apiUrl : String} (h : apiUrl ≠ "") : wsAutoUrl apiUrl ≠ "" := by
  unfold wsAutoUrl
  exact replaceFirst_ne_empty (replaceFirst_ne_empty h (by decide)) (by decide)

/-- Claim C1, counterexample to the claim as stated.  With
overlap threshold 3/10 the pair `(cexA, cexB)` is same-class with overlap
ratio 1/3 above the threshold and `cexA` has the higher confidence, yet
greedy suppression on `[cexC, cexA, cexB]` keeps `cexB` and drops `cexA`
(the even higher-confidence `cexC` suppresses `cexA` first), so it is not
the higher-confidence member of the pair that survives. -/
theorem claim1_counterexample :
    cexA.class_name = cexB.class_name ∧
    (3:ℚ)/10 < overlapRatio cexA.bbox cexB.bbox ∧
    cexB.confidence < cexA.confidence ∧
    cexB ∈ process [cexC, cexA, cexB] 0 ((3:ℚ)/10) ∧
    cexA ∉ process [cexC, cexA, cexB] 0 ((3:ℚ)/10) := by
  with_unfolding_all decide

/-- Claim C1 (amended): the post-processor output excludes every
detection whose confidence is below the confidence threshold, and no two
detections of the output share a class label while their overlap ratio
exceeds the overlap threshold — so at most one member of any same-class
pair with overlap above the threshold survives (which member survives
depends on the other detections, as the counterexample shows). -/
theorem claim1_filter_and_suppression :
    ∀ (raw : List RawDetection) (confidenceThreshold overlapThreshold : ℚ),
      (∀ d ∈ process raw confidenceThreshold overlapThreshold,
          confidenceThreshold ≤ d.confidence) ∧
      (process raw confidenceThreshold overlapThreshold).Pairwise
        (fun a b => a.class_name = b.class_name →
          overlapRatio a.bbox b.bbox ≤ overlapThreshold) :=
  fun raw ct ot => ⟨fun _ hd => (mem_process hd).2, process_pairwise raw ct ot⟩

/-- Claim C1, witness: the amended claim applied to the concrete
three-detection input of the counterexample. -/
theorem claim1_filter_and_suppression_witness :
    (∀ d ∈ process [cexC, cexA, cexB] 0 ((3:ℚ)/10), (0:ℚ) ≤ d.confidence) ∧
    (process [cexC, cexA, cexB] 0 ((3:ℚ)/10)).Pairwise
      (fun a b => a.class_name = b.class_name →
        overlapRatio a.bbox b.bbox ≤ (3:ℚ)/10) :=
  claim1_filter_and_suppression [cexC, cexA, cexB] 0 ((3:ℚ)/10)

/-- Claim C2: delivering detections one at a time to
`handleNewDetection` appends each to the end of the list and changes
nothing else, so starting from any list the result is that list followed
by the delivered detections in arrival order, and starting from the
empty list it is exactly the delivered detections. -/
theorem claim2_append_accumulates :
    (∀ (init ds : List Detection), ds.foldl handleNewDetection init = init ++ ds) ∧
    (∀ ds : List Detection, ds.foldl handleNewDetection [] = ds) := by
  have h : ∀ (ds init : List Detection), ds.foldl handleNewDetection init = init ++ ds := by
    intro ds
    induction ds with
    | nil => intro init; simp
    | cons d rest ih =>
        intro init
        simp only [List.foldl_cons, handleNewDetection, ih, List.append_assoc,
          List.singleton_append]
  exact ⟨fun init ds => h ds init, fun ds => by simpa using h ds []⟩

/-- Claim C3: on an empty detection list the `DetectionLog` shows the
no-detections placeholder, a count badge of 0 and no footer, and for
every list the footer — the only place where the average-confidence
division occurs — is rendered exactly when the list is non-empty, so the
division is evaluated only under the non-emptiness guard. -/
theorem claim3_empty_log_guard :
    (detectionLog []).showEmptyState = true ∧
    (detectionLog []).countBadge = 0 ∧
    (detectionLog []).footer = none ∧
    (∀ ds : List Detection, (detectionLog ds).footer.isSome = decide (0 < ds.length)) := by
  refine ⟨rfl, rfl, rfl, ?_⟩
  intro ds
  by_cases h : 0 < ds.length
  · simp [detectionLog, h]
  · simp [detectionLog, h]

/-- Claim C4: for every non-empty detection list the footer expression
equals the arithmetic mean of the confidences, and for the four sample
detections with confidences 0.8, 0.6, 0.7, 0.9 it equals 0.75 (displayed
as 75 percent). -/
theorem claim4_mean_confidence :
    (∀ ds : List Detection, ds ≠ [] →
        avgConfidence ds = ((ds.map fun d => d.confidence).sum) / (ds.length : ℚ)) ∧
    avgConfidence sampleDets = 3/4 ∧
    (detectionLog sampleDets).footer = some ⟨4, 75⟩ := by
  refine ⟨?_, ?_, ?_⟩
  · intro ds _
    unfold avgConfidence
    rw [foldl_add_confidence]
    simp
  · with_unfolding_all decide
  · with_unfolding_all decide

/-- Claim C4, witness: the mean formula instantiated at the non-empty
sample list. -/
theorem claim4_mean_confidence_witness :
    avgConfidence sampleDets
      = ((sampleDets.map fun d => d.confidence).sum) / (sampleDets.length : ℚ) :=
  claim4_mean_confidence.1 sampleDets (by decide)

/-- Claim C5: after the clear operation completes successfully the
detection list is empty, so the log shows a zero count, the empty
placeholder, and no footer (hence no average confidence). -/
theorem claim5_clear_then_zero :
    ∀ prior : List Detection,
      handleClearDetections prior (.resolved 200) = [] ∧
      (detectionLog (handleClearDetections prior (.resolved 200))).countBadge = 0 ∧
      (detectionLog (handleClearDetections prior (.resolved 200))).showEmptyState = true ∧
      (detectionLog (handleClearDetections prior (.resolved 200))).footer = none :=
  fun _ => ⟨rfl, rfl, rfl, rfl⟩

/-- Claim C6, counterexample to the claim as stated: `c6Message`
carries an `error` field (value the empty string), yet because the
handler tests `data.error` for JavaScript truthiness the empty-string
error falls through and the non-empty detections array is forwarded —
the message does not yield zero forwarded detections. -/
theorem claim6_counterexample :
    c6Message.error.isSome = true ∧
    (onmessage c6Message).forwarded = [c6Detection] ∧
    (onmessage c6Message).forwarded ≠ [] := by
  refine ⟨rfl, rfl, by decide⟩

/-- Claim C6 (amended): a message whose `error` field is truthy (a
non-empty string) yields no forwarded detections and no frame render,
and for every message without a truthy error whose `detections` field is
present, each of its detections is forwarded exactly once, in array
order (the forwarded list is the detections array itself). -/
theorem claim6_message_forwarding :
    (∀ m : StreamMessage, optStrTruthy m.error = true → onmessage m = ⟨[], none⟩) ∧
    (∀ (m : StreamMessage) (ds : List Detection),
        optStrTruthy m.error = false → m.detections = some ds →
        (onmessage m).forwarded = ds) := by
  constructor
  · intro m h
    simp [onmessage, h]
  · intro m ds h hds
    by_cases hl : 0 < ds.length
    · simp [onmessage, h, hds, hl]
    · have hnil : ds = [] := by
        cases ds with
        | nil => rfl
        | cons d rest => simp at hl
      subst hnil
      simp [onmessage, h, hds]

/-- Claim C6, witness: a truthy error message forwards nothing and draws
nothing, and an error-free message with one detection forwards exactly
that detection. -/
theorem claim6_message_forwarding_witness :
    onmessage ⟨some "Camera not available", none, some [c6Detection], "t"⟩ = ⟨[], none⟩ ∧
    (onmessage ⟨none, some "ZnJhbWU=", some [c6Detection], "t"⟩).forwarded = [c6Detection] :=
  ⟨claim6_message_forwarding.1 _ (by decide),
   claim6_message_forwarding.2 _ [c6Detection] (by decide) rfl⟩

/-- Claim C7: every close event observed by the stream client schedules
exactly one reconnection attempt with a delay of exactly 3000
milliseconds — after any event sequence the scheduled delays are one
3000 ms entry per close event, not only for the first close. -/
theorem claim7_reconnect_after_every_close :
    (∀ es : List WsEvent,
        (runEvents initialVideoStreamState es).scheduledReconnectDelays
          = List.replicate (es.countP isCloseEvent) reconnectDelayMs) ∧
    reconnectDelayMs = 3000 := by
  refine ⟨?_, rfl⟩
  intro es
  rw [runEvents_scheduled]
  simp [initialVideoStreamState]

/-- Claim C8: the clear handler empties the local detection list for
every resolved DELETE request — the response status, success or not, is
never inspected (status 500 included) — and leaves the list unchanged
exactly when the fetch itself throws. -/
theorem claim8_clear_ignores_http_status :
    (∀ (prior : List Detection) (status : ℕ),
        handleClearDetections prior (.resolved status) = []) ∧
    handleClearDetections sampleDets (.resolved 500) = [] ∧
    (∀ prior : List Detection, handleClearDetections prior .thrown = prior) :=
  ⟨fun _ _ => rfl, rfl, fun _ => rfl⟩

/-- Claim C9: the log renders a position for a detection exactly when
its `frame_position` field is truthy — `none` (absent or null) and
`some 0` both render no position, and a detection with position 0 is
rendered identically to the same detection without the field, while a
non-zero position is displayed as is. -/
theorem claim9_position_truthiness :
    (∀ d : Detection,
        (renderEntry d).position = none
          ↔ (d.frame_position = none ∨ d.frame_position = some 0)) ∧
    (∀ (cn : String) (conf : ℚ) (bb : BBox) (ts : String),
        renderEntry ⟨cn, conf, bb, ts, some 0⟩ = renderEntry ⟨cn, conf, bb, ts, none⟩) ∧
    (∀ (cn : String) (conf : ℚ) (bb : BBox) (ts : String) (p : ℚ),
        p ≠ 0 → (renderEntry ⟨cn, conf, bb, ts, some p⟩).position = some p) := by
  refine ⟨?_, ?_, ?_⟩
  · intro d
    rcases hd : d.frame_position with _ | p
    · simp [renderEntry, hd]
    · by_cases hp : p = 0 <;> simp [renderEntry, hd, hp]
  · intro cn conf bb ts
    simp [renderEntry]
  · intro cn conf bb ts p hp
    simp [renderEntry, hp]

/-- Claim C9, witness: a zero position renders like an absent one, and a
non-zero position is displayed. -/
theorem claim9_position_truthiness_witness :
    renderEntry ⟨"crack", (9:ℚ)/10, ⟨0, 0, 1, 1⟩, "t", some 0⟩
        = renderEntry ⟨"crack", (9:ℚ)/10, ⟨0, 0, 1, 1⟩, "t", none⟩ ∧
    (renderEntry ⟨"crack", (9:ℚ)/10, ⟨0, 0, 1, 1⟩, "t", some ((12:ℚ)/5)⟩).position
        = some ((12:ℚ)/5) :=
  ⟨claim9_position_truthiness.2.1 "crack" _ _ "t",
   claim9_position_truthiness.2.2 "crack" _ _ "t" _ (by norm_num)⟩

/-- Claim C10, counterexample to the claim as stated: for the API URL
string `""`, `setCustomServerUrl` stores the WebSocket URL `""`, but a
subsequent `getWebSocketUrl` does not return the stored URL concatenated
with the path — the stored empty string is falsy, so the getter falls
back to the configured default. -/
theorem claim10_counterexample :
    (setCustomServerUrl ⟨none, none⟩ "" none).custom_ws_url = some "" ∧
    getWebSocketUrl ⟨"http://localhost:8000", "ws://localhost:8000", true⟩
        (setCustomServerUrl ⟨none, none⟩ "" none) "/ws/video"
      = "ws://localhost:8000/ws/video" ∧
    "ws://localhost:8000/ws/video" ≠ "" ++ "/ws/video" := by
  refine ⟨rfl, rfl, by decide⟩

/-- Claim C10 (amended): for every non-empty API URL string, setting it
without an explicit WebSocket URL stores the API URL with its first
`http://` occurrence replaced by `ws://` and its first `https://`
occurrence replaced by `wss://`, and a subsequent `getWebSocketUrl`
returns that stored URL with the path appended (runtime configuration
enabled); clearing restores both getters to the configured defaults with
the path appended; two concrete instances evaluate the replacement. -/
theorem claim10_server_url_roundtrip :
    (∀ (cfg : FrontendConfig) (st : ConfigStore) (api p : String),
        cfg.allowRuntimeConfig = true → api ≠ "" →
        (setCustomServerUrl st api none).custom_ws_url = some (wsAutoUrl api) ∧
        getWebSocketUrl cfg (setCustomServerUrl st api none) p = wsAutoUrl api ++ p) ∧
    (∀ (cfg : FrontendConfig) (st : ConfigStore) (p : String),
        getApiUrl cfg (clearCustomServerUrl st) p = cfg.apiUrl ++ p ∧
        getWebSocketUrl cfg (clearCustomServerUrl st) p = cfg.wsUrl ++ p) ∧
    wsAutoUrl "https://example.com" = "wss://example.com" ∧
    wsAutoUrl "http://192.168.1.50:8000" = "ws://192.168.1.50:8000" := by
  refine ⟨?_, ?_, by decide, by decide⟩
  · intro cfg st api p hcfg hapi
    refine ⟨rfl, ?_⟩
    have h := wsAutoUrl_ne_empty hapi
    simp [getWebSocketUrl, setCustomServerUrl, hcfg, h]
  · intro cfg st p
    by_cases hcfg : cfg.allowRuntimeConfig <;>
      simp [getApiUrl, getWebSocketUrl, clearCustomServerUrl, hcfg]

/-- Claim C10, witness: the set and get round trip at the concrete
API URL `https://example.com` with path `/ws/video`. -/
theorem claim10_server_url_roundtrip_witness :
    (setCustomServerUrl ⟨none, none⟩ "https://example.com" none).custom_ws_url
        = some (wsAutoUrl "https://example.com") ∧
    getWebSocketUrl ⟨"http://localhost:8000", "ws://localhost:8000", true⟩
        (setCustomServerUrl ⟨none, none⟩ "https://example.com" none) "/ws/video"
      = wsAutoUrl "https://example.com" ++ "/ws/video" :=
  claim10_server_url_roundtrip.1 ⟨"http://localhost:8000", "ws://localhost:8000", true⟩
    ⟨none, none⟩ "https://example.com" "/ws/video" rfl (by decide)
